import Mathlib

/-!
Verification of `internal/fixer/style_conflicts.go` (filesystem style-conflict
resolution between the "go_zero" snake_case and "gozero" flat naming styles).

Modelling conventions:

* A directory is a path together with the finite set of names of the regular
  files directly inside it (`Dir`).  Subdirectory entries are not listed in
  `files`; `fileExists` in the source returns `false` for directories, so a
  conflict-pair name can only ever match a regular file.
* `filepath.Walk` is modelled by a list of `WalkEvent`s: the sequence of
  visitor invocations, in traversal order.  A successful visit of a directory
  carries the directory's contents as seen at visit time; a visit of a
  non-directory entry carries only its path (the source skips those
  immediately); a failed visit carries the error `filepath.Walk` passed to the
  visitor.  A pure, error-free traversal of a tree `fs : List Dir` is
  `eventsOf fs`.
* Deletions performed while visiting a directory only touch files directly
  inside that directory, and `filepath.Walk` visits each directory once, so a
  visit never changes the contents another visit observes; the event list can
  therefore carry each directory's contents at visit time.
* `os.Stat` results are `Except FsError FileInfo`; `os.IsNotExist` is
  `FsError.isNotExist`.  `os.Remove` fails on a missing path (`osRemove`).
* Paths recorded by the validator are stored relative to the project root
  (the source computes `filepath.Rel(projectPath, path)`), so `Dir.path`
  plays the role of that relative path in diagnostics.
-/

namespace StyleConflicts

/-- A pair of files that conflict due to different naming styles
(`StyleConflictPair` in the source). -/
structure StyleConflictPair where
  goZeroStyle : String
  goZeroFlat : String
deriving DecidableEq

/-- The static table of known conflicting file pairs
(`knownStyleConflicts` in the source; currently a single entry). -/
def knownStyleConflicts : List StyleConflictPair :=
  [⟨"service_context.go", "servicecontext.go"⟩]

/-- Errors a filesystem operation can report. `notExist` is the class of
errors recognised by `os.IsNotExist`; `permission` and `other` stand for the
remaining error classes. -/
inductive FsError where
  | notExist
  | permission
  | other
deriving DecidableEq

/-- `os.IsNotExist` on a filesystem error. -/
def FsError.isNotExist : FsError → Bool
  | .notExist => true
  | _ => false

/-- The part of `os.FileInfo` the source consults: `IsDir()`. -/
structure FileInfo where
  isDir : Bool
deriving DecidableEq

/-- `fileExists` from the source, as a function of the `os.Stat` result for
the path: any stat error yields `false`; a successful stat yields
`!info.IsDir()`. -/
def fileExists (statResult : Except FsError FileInfo) : Bool :=
  match statResult with
  | .error _ => false
  | .ok info => !info.isDir

/-- `os.Stat` for a name inside a directory whose regular files are `files`:
present names stat as regular files, absent names report `notExist`. -/
def statIn (files : Finset String) (name : String) : Except FsError FileInfo :=
  if name ∈ files then .ok ⟨false⟩ else .error .notExist

/-- `fileExists(filepath.Join(dir, name))` for a directory with regular
files `files`. -/
def fileExistsIn (files : Finset String) (name : String) : Bool :=
  fileExists (statIn files name)

/-- `os.Remove`: removes the named file, failing with a not-exist error when
the path is absent. -/
def osRemove (files : Finset String) (name : String) : Except FsError (Finset String) :=
  if name ∈ files then .ok (files.erase name) else .error .notExist

/-- A directory of the project tree: its path (relative to the project root)
and the set of regular files directly inside it. -/
structure Dir where
  path : String
  files : Finset String
deriving DecidableEq

/-- The body of the conflict-pair loop in `CleanupStyleConflicts`, for one
pair in one visited directory: if both named files exist, remove the one not
matching the kept style, re-checking existence immediately before removal.
In a traversal without outside interference the re-check always succeeds and
`os.Remove` cannot fail, so the step is a total function of the directory's
files. -/
def processPair (keepGoZeroStyle : Bool) (files : Finset String)
    (c : StyleConflictPair) : Finset String :=
  let goZeroExists := fileExistsIn files c.goZeroStyle
  let gozeroExists := fileExistsIn files c.goZeroFlat
  if goZeroExists && gozeroExists then
    let fileToRemove := if keepGoZeroStyle then c.goZeroFlat else c.goZeroStyle
    if fileExistsIn files fileToRemove then files.erase fileToRemove else files
  else files

/-- The same loop body with outside interference made explicit: `vanish` is
the set of files of the directory deleted by an external process between the
two detection checks and the re-check before removal.  `os.Remove` is the
fallible `osRemove`. -/
def processPairRaced (keepGoZeroStyle : Bool) (vanish : Finset String)
    (files : Finset String) (c : StyleConflictPair) : Except FsError (Finset String) :=
  let goZeroExists := fileExistsIn files c.goZeroStyle
  let gozeroExists := fileExistsIn files c.goZeroFlat
  let filesNow := files \ vanish
  if goZeroExists && gozeroExists then
    let fileToRemove := if keepGoZeroStyle then c.goZeroFlat else c.goZeroStyle
    if fileExistsIn filesNow fileToRemove then osRemove filesNow fileToRemove
    else .ok filesNow
  else .ok filesNow

/-- Processing of one visited directory by `CleanupStyleConflicts`: the loop
over `knownStyleConflicts`. -/
def processDir (keepGoZeroStyle : Bool) (files : Finset String) : Finset String :=
  knownStyleConflicts.foldl (processPair keepGoZeroStyle) files

/-- One visitor invocation of `filepath.Walk`: a successful visit of a
directory (with its contents at visit time), a successful visit of a
non-directory entry, or a visit carrying a traversal error. -/
inductive WalkEvent where
  | dirEntry (d : Dir)
  | fileEntry (path : String)
  | fail (path : String) (e : FsError)
deriving DecidableEq

/-- The error-free traversal of a pure tree: every directory visited
successfully, in order. -/
def eventsOf (fs : List Dir) : List WalkEvent :=
  fs.map .dirEntry

/-- The walk of `CleanupStyleConflicts`: not-exist traversal errors are
ignored, other traversal errors abort; non-directories are skipped; each
directory is processed with `processDir`.  On success, returns the visited
directories with their contents after cleanup. -/
def cleanupWalk (keepGoZeroStyle : Bool) : List WalkEvent → Except FsError (List Dir)
  | [] => .ok []
  | .fail _ e :: rest =>
    if e.isNotExist then cleanupWalk keepGoZeroStyle rest else .error e
  | .fileEntry _ :: rest => cleanupWalk keepGoZeroStyle rest
  | .dirEntry d :: rest =>
    match cleanupWalk keepGoZeroStyle rest with
    | .error e => .error e
    | .ok ds => .ok (⟨d.path, processDir keepGoZeroStyle d.files⟩ :: ds)

/-- `CleanupStyleConflicts(projectPath, style)` over a traversal of the
project tree.  `keepGoZeroStyle := (style == "go_zero")`. -/
def CleanupStyleConflicts (style : String) (events : List WalkEvent) :
    Except FsError (List Dir) :=
  let keepGoZeroStyle := style == "go_zero"
  cleanupWalk keepGoZeroStyle events

/-- The diagnostic line the validator records for a conflicting pair in a
directory: `fmt.Sprintf("%s: both %s and %s exist", relPath, a, b)`. -/
def conflictDiag (relPath : String) (c : StyleConflictPair) : String :=
  relPath ++ ": both " ++ c.goZeroStyle ++ " and " ++ c.goZeroFlat ++ " exist"

/-- The diagnostics the validator records while visiting one directory: one
line per known pair whose two files both exist there. -/
def conflictsIn (d : Dir) : List String :=
  knownStyleConflicts.filterMap fun c =>
    if fileExistsIn d.files c.goZeroStyle && fileExistsIn d.files c.goZeroFlat then
      some (conflictDiag d.path c)
    else none

/-- The walk of `ValidateNoStyleConflicts`, accumulating diagnostics: any
traversal error aborts (the validator's visitor returns `err` unconditionally);
non-directories are skipped; each directory appends its conflict lines. -/
def validateWalk : List WalkEvent → List String → Except FsError (List String)
  | [], acc => .ok acc
  | .fail _ e :: _, _ => .error e
  | .fileEntry _ :: rest, acc => validateWalk rest acc
  | .dirEntry d :: rest, acc => validateWalk rest (acc ++ conflictsIn d)

/-- An error returned by `ValidateNoStyleConflicts`: either a traversal error
or the aggregate conflict report. -/
inductive ValidateError where
  | walk (e : FsError)
  | conflictsFound (msg : String)
deriving DecidableEq

/-- `ValidateNoStyleConflicts(projectPath)`: walk the tree collecting
diagnostics; a traversal error is returned as-is; otherwise fail with an
aggregate error listing every conflict, one per line, or succeed when none
were found. -/
def ValidateNoStyleConflicts (events : List WalkEvent) : Except ValidateError Unit :=
  match validateWalk events [] with
  | .error e => .error (.walk e)
  | .ok conflicts =>
    if conflicts.length > 0 then
      .error (.conflictsFound
        ("style conflicts detected:\n" ++ String.intercalate "\n" conflicts))
    else .ok ()

/-- All diagnostics collected over a pure tree, in walk order. -/
def allConflicts (fs : List Dir) : List String :=
  (fs.map conflictsIn).flatten

/-- The three convention directories probed by `DetectExistingStyle`, as
paths relative to the project root, in source order. -/
def commonDirs : List String :=
  ["internal/svc", "internal/handler", "internal/logic"]

/-- The inner loop of `DetectExistingStyle` for one conflict pair: probe the
convention directories in order, checking the snake_case name before the flat
name in each; `tree` maps a directory path (relative to the project root) to
the regular files inside it. -/
def detectInDirs (tree : String → Finset String) (c : StyleConflictPair) :
    List String → Option String
  | [] => none
  | dir :: rest =>
    if fileExistsIn (tree dir) c.goZeroStyle then some "go_zero"
    else if fileExistsIn (tree dir) c.goZeroFlat then some "gozero"
    else detectInDirs tree c rest

/-- The outer loop of `DetectExistingStyle` over the conflict table. -/
def detectOverPairs (tree : String → Finset String) :
    List StyleConflictPair → String
  | [] => ""
  | c :: rest =>
    match detectInDirs tree c commonDirs with
    | some style => style
    | none => detectOverPairs tree rest

/-- `DetectExistingStyle(projectPath)`: returns `"go_zero"`, `"gozero"`, or
`""` when no candidate file is found. -/
def DetectExistingStyle (tree : String → Finset String) : String :=
  detectOverPairs tree knownStyleConflicts

/-- `SuggestStyleBasedOnExisting(projectPath, defaultStyle)`: the detected
style when non-empty, otherwise the supplied default. -/
def SuggestStyleBasedOnExisting (tree : String → Finset String)
    (defaultStyle : String) : String :=
  let existingStyle := DetectExistingStyle tree
  if existingStyle != "" then existingStyle else defaultStyle

/-- Modelled from the spec: the first-found rule of §4.4 written out for the
current conflict table — iterate conflict pairs, then the three convention
directories in order, checking the snake_case name before the flat name in
each directory; empty when nothing is found.  Used to state the detector's
search order as a claim separate from the source's loop structure. -/
def detectFirstFound (tree : String → Finset String) : String :=
  if fileExistsIn (tree "internal/svc") "service_context.go" then "go_zero"
  else if fileExistsIn (tree "internal/svc") "servicecontext.go" then "gozero"
  else if fileExistsIn (tree "internal/handler") "service_context.go" then "go_zero"
  else if fileExistsIn (tree "internal/handler") "servicecontext.go" then "gozero"
  else if fileExistsIn (tree "internal/logic") "service_context.go" then "go_zero"
  else if fileExistsIn (tree "internal/logic") "servicecontext.go" then "gozero"
  else ""

/-! ### Basic lemmas about the filesystem primitives -/

theorem fileExistsIn_iff {files : Finset String} {name : String} :
    fileExistsIn files name = true ↔ name ∈ files := by
  by_cases h : name ∈ files <;> simp [fileExistsIn, fileExists, statIn, h]

theorem fileExistsIn_eq_false_iff {files : Finset String} {name : String} :
    fileExistsIn files name = false ↔ name ∉ files := by
  by_cases h : name ∈ files <;> simp [fileExistsIn, fileExists, statIn, h]

/-- The single entry of the current conflict table. -/
def serviceContextPair : StyleConflictPair :=
  ⟨"service_context.go", "servicecontext.go"⟩

theorem mem_knownStyleConflicts {c : StyleConflictPair} :
    c ∈ knownStyleConflicts ↔ c = serviceContextPair := by
  simp [knownStyleConflicts, serviceContextPair]

theorem processDir_eq (keep : Bool) (files : Finset String) :
    processDir keep files = processPair keep files serviceContextPair := rfl

/-! ### Lemmas about the per-pair cleanup step -/

theorem processPair_of_both {files : Finset String} {c : StyleConflictPair}
    (keep : Bool) (h1 : c.goZeroStyle ∈ files) (h2 : c.goZeroFlat ∈ files) :
    processPair keep files c =
      files.erase (if keep then c.goZeroFlat else c.goZeroStyle) := by
  cases keep <;>
    simp [processPair, fileExistsIn_iff.mpr h1, fileExistsIn_iff.mpr h2]

theorem processPair_of_not_both {files : Finset String} {c : StyleConflictPair}
    (keep : Bool) (h : ¬(c.goZeroStyle ∈ files ∧ c.goZeroFlat ∈ files)) :
    processPair keep files c = files := by
  by_cases h1 : c.goZeroStyle ∈ files
  · have h2 : c.goZeroFlat ∉ files := fun hh => h ⟨h1, hh⟩
    simp [processPair, fileExistsIn_eq_false_iff.mpr h2]
  · simp [processPair, fileExistsIn_eq_false_iff.mpr h1]

theorem processPair_no_conflict {files : Finset String} {c : StyleConflictPair}
    (keep : Bool) :
    ¬(c.goZeroStyle ∈ processPair keep files c ∧
      c.goZeroFlat ∈ processPair keep files c) := by
  by_cases hb : c.goZeroStyle ∈ files ∧ c.goZeroFlat ∈ files
  · rw [processPair_of_both keep hb.1 hb.2]
    cases keep with
    | false => exact fun hmem => (Finset.not_mem_erase _ _) hmem.1
    | true => exact fun hmem => (Finset.not_mem_erase _ _) hmem.2
  · rw [processPair_of_not_both keep hb]; exact hb

theorem processDir_no_conflict (keep : Bool) (files : Finset String) :
    ∀ c ∈ knownStyleConflicts,
      ¬(c.goZeroStyle ∈ processDir keep files ∧
        c.goZeroFlat ∈ processDir keep files) := by
  intro c hc
  rw [mem_knownStyleConflicts] at hc
  subst hc
  rw [processDir_eq]
  exact processPair_no_conflict keep

theorem processDir_of_no_conflict {files : Finset String}
    (keep : Bool)
    (h : ∀ c ∈ knownStyleConflicts,
      ¬(c.goZeroStyle ∈ files ∧ c.goZeroFlat ∈ files)) :
    processDir keep files = files := by
  rw [processDir_eq]
  exact processPair_of_not_both keep
    (h serviceContextPair (mem_knownStyleConflicts.mpr rfl))

/-! ### The cleanup walk on a pure tree -/

theorem cleanupWalk_eventsOf (keep : Bool) (fs : List Dir) :
    cleanupWalk keep (eventsOf fs) =
      .ok (fs.map fun d => ⟨d.path, processDir keep d.files⟩) := by
  induction fs with
  | nil => rfl
  | cons d rest ih =>
    simp only [eventsOf] at ih ⊢
    simp [cleanupWalk, ih]

theorem CleanupStyleConflicts_eventsOf (style : String) (fs : List Dir) :
    CleanupStyleConflicts style (eventsOf fs) =
      .ok (fs.map fun d => ⟨d.path, processDir (style == "go_zero") d.files⟩) :=
  cleanupWalk_eventsOf _ fs

/-! ### The validation walk on a pure tree -/

theorem validateWalk_eventsOf (fs : List Dir) :
    ∀ acc, validateWalk (eventsOf fs) acc = .ok (acc ++ allConflicts fs) := by
  induction fs with
  | nil => intro acc; simp [eventsOf, validateWalk, allConflicts]
  | cons d rest ih =>
    intro acc
    simp [eventsOf, validateWalk, allConflicts] at ih ⊢
    rw [ih (acc ++ conflictsIn d)]
    simp

theorem conflictsIn_eq_nil_iff {d : Dir} :
    conflictsIn d = [] ↔
      ∀ c ∈ knownStyleConflicts,
        ¬(c.goZeroStyle ∈ d.files ∧ c.goZeroFlat ∈ d.files) := by
  simp only [conflictsIn, knownStyleConflicts, List.filterMap]
  constructor
  · intro h c hc
    simp [List.mem_singleton] at hc
    subst hc
    intro hb
    simp [fileExistsIn_iff.mpr hb.1, fileExistsIn_iff.mpr hb.2] at h
  · intro h
    have := h ⟨"service_context.go", "servicecontext.go"⟩ (by simp)
    by_cases h1 : ("service_context.go" : String) ∈ d.files
    · have h2 : ("servicecontext.go" : String) ∉ d.files := fun hh => this ⟨h1, hh⟩
      simp [fileExistsIn_eq_false_iff.mpr h2]
    · simp [fileExistsIn_eq_false_iff.mpr h1]

theorem validate_eventsOf_ok_of {fs : List Dir}
    (h : ∀ d ∈ fs, conflictsIn d = []) :
    ValidateNoStyleConflicts (eventsOf fs) = .ok () := by
  have hall : allConflicts fs = [] := by
    simp only [allConflicts, List.flatten_eq_nil_iff]
    intro l hl
    rw [List.mem_map] at hl
    obtain ⟨d, hd, rfl⟩ := hl
    exact h d hd
  simp [ValidateNoStyleConflicts, validateWalk_eventsOf fs [], hall]

theorem mem_allConflicts {fs : List Dir} {d : Dir} {c : StyleConflictPair}
    (hd : d ∈ fs) (hc : c ∈ knownStyleConflicts)
    (hb : c.goZeroStyle ∈ d.files ∧ c.goZeroFlat ∈ d.files) :
    conflictDiag d.path c ∈ allConflicts fs := by
  rw [mem_knownStyleConflicts] at hc
  subst hc
  have h1 : fileExistsIn d.files "service_context.go" = true :=
    fileExistsIn_iff.mpr hb.1
  have h2 : fileExistsIn d.files "servicecontext.go" = true :=
    fileExistsIn_iff.mpr hb.2
  have hin : conflictDiag d.path serviceContextPair ∈ conflictsIn d := by
    simp [conflictsIn, knownStyleConflicts, serviceContextPair, h1, h2]
  rw [allConflicts, List.mem_flatten]
  exact ⟨conflictsIn d, List.mem_map_of_mem _ hd, hin⟩

/-- A directory holding both halves of the known conflict pair, and the
one-directory tree around it, used as concrete instances. -/
def sampleConflictDir : Dir :=
  ⟨"internal/svc", {"service_context.go", "servicecontext.go"}⟩

def sampleTree : List Dir := [sampleConflictDir]

/-! ### Claim theorems -/

/-- C1: after `CleanupStyleConflicts` returns without error, no directory of
the tree contains both halves of any known `ConflictPair`; in particular
`ValidateNoStyleConflicts` run immediately afterwards returns success. -/
theorem cleanup_then_validate_ok (style : String) (fs fs' : List Dir)
    (h : CleanupStyleConflicts style (eventsOf fs) = .ok fs') :
    (∀ d ∈ fs', ∀ c ∈ knownStyleConflicts,
      ¬(c.goZeroStyle ∈ d.files ∧ c.goZeroFlat ∈ d.files))
    ∧ ValidateNoStyleConflicts (eventsOf fs') = .ok () := by
  rw [CleanupStyleConflicts_eventsOf] at h
  injection h with h
  subst h
  constructor
  · intro d hd c hc
    rw [List.mem_map] at hd
    obtain ⟨d0, hd0, rfl⟩ := hd
    exact processDir_no_conflict _ _ c hc
  · apply validate_eventsOf_ok_of
    intro d hd
    rw [List.mem_map] at hd
    obtain ⟨d0, hd0, rfl⟩ := hd
    exact conflictsIn_eq_nil_iff.mpr (fun c hc => processDir_no_conflict _ _ c hc)

theorem cleanup_then_validate_ok_witness :
    (∀ d ∈ [(⟨"internal/svc", {"service_context.go"}⟩ : Dir)],
      ∀ c ∈ knownStyleConflicts,
        ¬(c.goZeroStyle ∈ d.files ∧ c.goZeroFlat ∈ d.files))
    ∧ ValidateNoStyleConflicts
        (eventsOf [(⟨"internal/svc", {"service_context.go"}⟩ : Dir)]) =
      .ok () :=
  cleanup_then_validate_ok "go_zero" sampleTree
    [⟨"internal/svc", {"service_context.go"}⟩] (by rfl)

/-- C5: running `CleanupStyleConflicts` a second time with the same style
immediately after a successful first run returns no error and removes no
further files: the second run reproduces the first run's output exactly. -/
theorem cleanup_idempotent (style : String) (fs fs' : List Dir)
    (h : CleanupStyleConflicts style (eventsOf fs) = .ok fs') :
    CleanupStyleConflicts style (eventsOf fs') = .ok fs' := by
  rw [CleanupStyleConflicts_eventsOf] at h
  injection h with h
  subst h
  rw [CleanupStyleConflicts_eventsOf]
  congr 1
  rw [List.map_map]
  have hff :
      ((fun d : Dir => Dir.mk d.path (processDir (style == "go_zero") d.files)) ∘
        fun d : Dir => Dir.mk d.path (processDir (style == "go_zero") d.files)) =
      fun d : Dir => Dir.mk d.path (processDir (style == "go_zero") d.files) := by
    funext d
    simp only [Function.comp]
    congr 1
    exact processDir_of_no_conflict _ (processDir_no_conflict _ _)
  rw [hff]

theorem cleanup_idempotent_witness :
    CleanupStyleConflicts "go_zero"
        (eventsOf [(⟨"internal/svc", {"service_context.go"}⟩ : Dir)]) =
      .ok [⟨"internal/svc", {"service_context.go"}⟩] :=
  cleanup_idempotent "go_zero" sampleTree
    [⟨"internal/svc", {"service_context.go"}⟩] (by rfl)

/-- C3: if any directory holds both halves of a conflict pair,
`ValidateNoStyleConflicts` fails with one aggregate error listing every
conflict found across the whole tree, one per line (it does not stop at the
first); with no such directory it succeeds with no error. -/
theorem validate_reports_all (fs : List Dir) :
    ((∃ d ∈ fs, ∃ c ∈ knownStyleConflicts,
        c.goZeroStyle ∈ d.files ∧ c.goZeroFlat ∈ d.files) →
      ValidateNoStyleConflicts (eventsOf fs) =
        .error (.conflictsFound
          ("style conflicts detected:\n" ++
            String.intercalate "\n" (allConflicts fs)))
      ∧ ∀ d ∈ fs, ∀ c ∈ knownStyleConflicts,
          c.goZeroStyle ∈ d.files → c.goZeroFlat ∈ d.files →
          conflictDiag d.path c ∈ allConflicts fs)
    ∧ ((∀ d ∈ fs, ∀ c ∈ knownStyleConflicts,
        ¬(c.goZeroStyle ∈ d.files ∧ c.goZeroFlat ∈ d.files)) →
      ValidateNoStyleConflicts (eventsOf fs) = .ok ()) := by
  constructor
  · rintro ⟨d, hd, c, hc, hb⟩
    have hmem := mem_allConflicts hd hc hb
    have hlen : 0 < (allConflicts fs).length :=
      List.length_pos.mpr (List.ne_nil_of_mem hmem)
    constructor
    · simp only [ValidateNoStyleConflicts, validateWalk_eventsOf fs [],
        List.nil_append]
      simp [hlen]
    · exact fun d hd c hc h1 h2 => mem_allConflicts hd hc ⟨h1, h2⟩
  · intro h
    exact validate_eventsOf_ok_of fun d hd =>
      conflictsIn_eq_nil_iff.mpr (h d hd)

theorem validate_reports_all_witness :
    ValidateNoStyleConflicts (eventsOf sampleTree) =
      .error (.conflictsFound
        ("style conflicts detected:\n" ++
          String.intercalate "\n" (allConflicts sampleTree))) :=
  ((validate_reports_all sampleTree).1
    ⟨sampleConflictDir, by simp [sampleTree], serviceContextPair,
      mem_knownStyleConflicts.mpr rfl, by decide, by decide⟩).1

/-- C2: in every directory holding both halves of the known pair, cleanup
with style `"go_zero"` deletes the flat-named file and leaves the snake_case
file, and cleanup with style `"gozero"` deletes the snake_case file and
leaves the flat-named file; in directories where only one half (or neither)
exists, no file is removed. -/
theorem cleanup_deletes_nonselected (fs : List Dir) (d : Dir) (hd : d ∈ fs)
    (fsA fsB : List Dir)
    (hA : CleanupStyleConflicts "go_zero" (eventsOf fs) = .ok fsA)
    (hB : CleanupStyleConflicts "gozero" (eventsOf fs) = .ok fsB) :
    (("service_context.go" ∈ d.files ∧ "servicecontext.go" ∈ d.files) →
      (⟨d.path, d.files.erase "servicecontext.go"⟩ : Dir) ∈ fsA
      ∧ (⟨d.path, d.files.erase "service_context.go"⟩ : Dir) ∈ fsB
      ∧ "service_context.go" ∈ d.files.erase "servicecontext.go"
      ∧ "servicecontext.go" ∈ d.files.erase "service_context.go")
    ∧ (¬("service_context.go" ∈ d.files ∧ "servicecontext.go" ∈ d.files) →
      (⟨d.path, d.files⟩ : Dir) ∈ fsA ∧ (⟨d.path, d.files⟩ : Dir) ∈ fsB) := by
  rw [CleanupStyleConflicts_eventsOf] at hA hB
  injection hA with hA
  injection hB with hB
  subst hA
  subst hB
  have hkA : (("go_zero" : String) == "go_zero") = true := by decide
  have hkB : (("gozero" : String) == "go_zero") = false := by decide
  constructor
  · intro hb
    have eA : processDir (("go_zero" : String) == "go_zero") d.files =
        d.files.erase "servicecontext.go" := by
      rw [hkA, processDir_eq,
        processPair_of_both (c := serviceContextPair) true hb.1 hb.2]
      simp [serviceContextPair]
    have eB : processDir (("gozero" : String) == "go_zero") d.files =
        d.files.erase "service_context.go" := by
      rw [hkB, processDir_eq,
        processPair_of_both (c := serviceContextPair) false hb.1 hb.2]
      simp [serviceContextPair]
    refine ⟨?_, ?_, ?_, ?_⟩
    · exact List.mem_map.mpr ⟨d, hd, by rw [eA]⟩
    · exact List.mem_map.mpr ⟨d, hd, by rw [eB]⟩
    · exact Finset.mem_erase.mpr ⟨by decide, hb.1⟩
    · exact Finset.mem_erase.mpr ⟨by decide, hb.2⟩
  · intro hnb
    have eA : processDir (("go_zero" : String) == "go_zero") d.files = d.files := by
      rw [hkA, processDir_eq,
        processPair_of_not_both (c := serviceContextPair) true hnb]
    have eB : processDir (("gozero" : String) == "go_zero") d.files = d.files := by
      rw [hkB, processDir_eq,
        processPair_of_not_both (c := serviceContextPair) false hnb]
    exact ⟨List.mem_map.mpr ⟨d, hd, by rw [eA]⟩,
      List.mem_map.mpr ⟨d, hd, by rw [eB]⟩⟩

theorem cleanup_deletes_nonselected_witness :
    (("service_context.go" ∈ sampleConflictDir.files ∧
        "servicecontext.go" ∈ sampleConflictDir.files) →
      (⟨sampleConflictDir.path,
          sampleConflictDir.files.erase "servicecontext.go"⟩ : Dir) ∈
        [(⟨"internal/svc", {"service_context.go"}⟩ : Dir)]
      ∧ (⟨sampleConflictDir.path,
          sampleConflictDir.files.erase "service_context.go"⟩ : Dir) ∈
        [(⟨"internal/svc", {"servicecontext.go"}⟩ : Dir)]
      ∧ "service_context.go" ∈ sampleConflictDir.files.erase "servicecontext.go"
      ∧ "servicecontext.go" ∈ sampleConflictDir.files.erase "service_context.go")
    ∧ (¬("service_context.go" ∈ sampleConflictDir.files ∧
        "servicecontext.go" ∈ sampleConflictDir.files) →
      (⟨sampleConflictDir.path, sampleConflictDir.files⟩ : Dir) ∈
        [(⟨"internal/svc", {"service_context.go"}⟩ : Dir)]
      ∧ (⟨sampleConflictDir.path, sampleConflictDir.files⟩ : Dir) ∈
        [(⟨"internal/svc", {"servicecontext.go"}⟩ : Dir)]) :=
  cleanup_deletes_nonselected sampleTree sampleConflictDir (by simp [sampleTree])
    [⟨"internal/svc", {"service_context.go"}⟩]
    [⟨"internal/svc", {"servicecontext.go"}⟩] (by rfl) (by rfl)

/-- C6: a single cleanup run removes at most one file of a pair per
directory, never the file of the selected style, and only when both halves
were observed to exist at check time; and if the file to be removed vanishes
between detection and the re-check immediately before removal, the deletion
is skipped rather than treated as an error. -/
theorem cleanup_removal_bounds :
    (∀ (style : String) (fs fs' : List Dir),
      CleanupStyleConflicts style (eventsOf fs) = .ok fs' →
      ∀ d ∈ fs, ∃ d' ∈ fs', d'.path = d.path
        ∧ (d'.files = d.files ∨
           d'.files = d.files.erase
             (if style == "go_zero" then "servicecontext.go"
              else "service_context.go"))
        ∧ ((if style == "go_zero" then "service_context.go"
            else "servicecontext.go") ∈ d.files →
           (if style == "go_zero" then "service_context.go"
            else "servicecontext.go") ∈ d'.files)
        ∧ (d'.files ≠ d.files →
           "service_context.go" ∈ d.files ∧ "servicecontext.go" ∈ d.files))
    ∧ (∀ (keep : Bool) (vanish files : Finset String),
      ∀ c ∈ knownStyleConflicts,
      ∃ files', processPairRaced keep vanish files c = .ok files'
        ∧ (files' = files \ vanish ∨
           files' = (files \ vanish).erase
             (if keep then c.goZeroFlat else c.goZeroStyle))
        ∧ (files' ≠ files \ vanish →
           c.goZeroStyle ∈ files ∧ c.goZeroFlat ∈ files)
        ∧ ((if keep then c.goZeroFlat else c.goZeroStyle) ∈ vanish →
           files' = files \ vanish)) := by
  constructor
  · intro style fs fs' h d hd
    rw [CleanupStyleConflicts_eventsOf] at h
    injection h with h
    subst h
    refine ⟨⟨d.path, processDir (style == "go_zero") d.files⟩,
      List.mem_map.mpr ⟨d, hd, rfl⟩, rfl, ?_, ?_, ?_⟩
    · by_cases hb : "service_context.go" ∈ d.files ∧ "servicecontext.go" ∈ d.files
      · right
        rw [processDir_eq,
          processPair_of_both (c := serviceContextPair) _ hb.1 hb.2]
        cases hk : (style == "go_zero") <;> simp [serviceContextPair]
      · left
        rw [processDir_eq,
          processPair_of_not_both (c := serviceContextPair) _ hb]
    · intro hkept
      by_cases hb : "service_context.go" ∈ d.files ∧ "servicecontext.go" ∈ d.files
      · rw [processDir_eq,
          processPair_of_both (c := serviceContextPair) _ hb.1 hb.2]
        cases hk : (style == "go_zero") <;>
          simp only [hk] at hkept ⊢ <;>
          simp only [serviceContextPair, if_true, if_false] <;>
          exact Finset.mem_erase.mpr ⟨by decide, hkept⟩
      · rw [processDir_eq,
          processPair_of_not_both (c := serviceContextPair) _ hb]
        exact hkept
    · intro hne
      by_contra hb
      exact hne (by rw [processDir_eq,
        processPair_of_not_both (c := serviceContextPair) _ hb])
  · intro keep vanish files c hc
    rw [mem_knownStyleConflicts] at hc
    subst hc
    by_cases h1 : ("service_context.go" : String) ∈ files
    case neg =>
      refine ⟨files \ vanish, ?_, Or.inl rfl, fun h => absurd rfl h, fun _ => rfl⟩
      simp [processPairRaced, serviceContextPair, fileExistsIn_eq_false_iff.mpr h1]
    case pos =>
    by_cases h2 : ("servicecontext.go" : String) ∈ files
    case neg =>
      refine ⟨files \ vanish, ?_, Or.inl rfl, fun h => absurd rfl h, fun _ => rfl⟩
      simp [processPairRaced, serviceContextPair, fileExistsIn_eq_false_iff.mpr h2,
        fileExistsIn_iff.mpr h1]
    case pos =>
    by_cases h3 : (if keep then ("servicecontext.go" : String)
        else "service_context.go") ∈ files \ vanish
    · refine ⟨(files \ vanish).erase
          (if keep then "servicecontext.go" else "service_context.go"),
        ?_, ?_, fun _ => ⟨h1, h2⟩, ?_⟩
      · cases keep <;>
          simp_all [processPairRaced, serviceContextPair, osRemove,
            fileExistsIn_iff, fileExistsIn_eq_false_iff]
      · right
        cases keep <;> simp [serviceContextPair]
      · intro hv
        exfalso
        have := (Finset.mem_sdiff.mp h3).2
        cases keep <;> simp_all [serviceContextPair]
    · refine ⟨files \ vanish, ?_, Or.inl rfl, fun h => absurd rfl h, fun _ => rfl⟩
      cases keep <;>
        simp_all [processPairRaced, serviceContextPair, osRemove,
          fileExistsIn_iff, fileExistsIn_eq_false_iff]

theorem cleanup_removal_bounds_witness :
    (∃ d' ∈ [(⟨"internal/svc", {"service_context.go"}⟩ : Dir)],
      d'.path = sampleConflictDir.path
      ∧ (d'.files = sampleConflictDir.files ∨
         d'.files = sampleConflictDir.files.erase
           (if ("go_zero" : String) == "go_zero" then "servicecontext.go"
            else "service_context.go"))
      ∧ ((if ("go_zero" : String) == "go_zero" then "service_context.go"
          else "servicecontext.go") ∈ sampleConflictDir.files →
         (if ("go_zero" : String) == "go_zero" then "service_context.go"
          else "servicecontext.go") ∈ d'.files)
      ∧ (d'.files ≠ sampleConflictDir.files →
         "service_context.go" ∈ sampleConflictDir.files ∧
         "servicecontext.go" ∈ sampleConflictDir.files))
    ∧ (∃ files', processPairRaced true {"servicecontext.go"}
          {"service_context.go", "servicecontext.go"} serviceContextPair =
          .ok files'
        ∧ (files' = {"service_context.go", "servicecontext.go"} \
              {"servicecontext.go"} ∨
           files' = ({"service_context.go", "servicecontext.go"} \
              ({"servicecontext.go"} : Finset String)).erase
             (if true then serviceContextPair.goZeroFlat
              else serviceContextPair.goZeroStyle))
        ∧ (files' ≠ {"service_context.go", "servicecontext.go"} \
              {"servicecontext.go"} →
           serviceContextPair.goZeroStyle ∈
              ({"service_context.go", "servicecontext.go"} : Finset String) ∧
           serviceContextPair.goZeroFlat ∈
              ({"service_context.go", "servicecontext.go"} : Finset String))
        ∧ ((if true then serviceContextPair.goZeroFlat
            else serviceContextPair.goZeroStyle) ∈
              ({"servicecontext.go"} : Finset String) →
           files' = {"service_context.go", "servicecontext.go"} \
              {"servicecontext.go"})) :=
  ⟨cleanup_removal_bounds.1 "go_zero" sampleTree
      [⟨"internal/svc", {"service_context.go"}⟩] (by rfl)
      sampleConflictDir (by simp [sampleTree]),
    cleanup_removal_bounds.2 true {"servicecontext.go"}
      {"service_context.go", "servicecontext.go"} serviceContextPair
      (mem_knownStyleConflicts.mpr rfl)⟩

/-- C9: the existence check returns true for a path iff a filesystem entry
exists at that path and it is a regular file (directories yield false), and
every stat/access error — including not-found — yields false rather than
propagating an error. -/
theorem fileExists_regular_file_iff :
    (∀ r : Except FsError FileInfo,
      fileExists r = true ↔ ∃ info, r = .ok info ∧ info.isDir = false)
    ∧ (∀ info : FileInfo, info.isDir = true → fileExists (.ok info) = false)
    ∧ (∀ e : FsError, fileExists (.error e) = false) := by
  refine ⟨?_, ?_, ?_⟩
  · intro r
    cases r with
    | error e => simp [fileExists]
    | ok info => cases info with | mk b => cases b <;> simp [fileExists]
  · intro info h
    simp [fileExists, h]
  · intro e
    rfl

theorem fileExists_regular_file_iff_witness :
    (FileInfo.mk true).isDir = true
    ∧ fileExists (.ok (FileInfo.mk true)) = false
    ∧ fileExists (.error .notExist) = false :=
  ⟨rfl, fileExists_regular_file_iff.2.1 (FileInfo.mk true) rfl,
    fileExists_regular_file_iff.2.2 .notExist⟩

/-- C4, counterexample: a not-found traversal error is NOT absorbed by
`ValidateNoStyleConflicts` — its visitor returns every error unconditionally,
so the walk aborts and the error is surfaced (while `CleanupStyleConflicts`
does absorb it). -/
theorem validate_notfound_surfaced_cex :
    ValidateNoStyleConflicts [WalkEvent.fail "internal/svc" .notExist] =
      .error (.walk .notExist)
    ∧ CleanupStyleConflicts "go_zero" [WalkEvent.fail "internal/svc" .notExist] =
      .ok [] :=
  ⟨rfl, rfl⟩

/-- C4, amended: `CleanupStyleConflicts` silently absorbs not-found traversal
errors and aborts on any other traversal error, surfacing it; for
`ValidateNoStyleConflicts` every traversal error, not-found included, aborts
the walk and is surfaced to the caller. -/
theorem walk_notfound_handling :
    (∀ (style p : String) (pre post : List WalkEvent),
      CleanupStyleConflicts style (pre ++ .fail p .notExist :: post) =
        CleanupStyleConflicts style (pre ++ post))
    ∧ (∀ (style p : String) (e : FsError) (post : List WalkEvent),
        e.isNotExist = false →
        CleanupStyleConflicts style (.fail p e :: post) = .error e)
    ∧ (∀ (p : String) (e : FsError) (post : List WalkEvent),
        ValidateNoStyleConflicts (.fail p e :: post) = .error (.walk e)) := by
  refine ⟨?_, ?_, ?_⟩
  · intro style p pre post
    simp only [CleanupStyleConflicts]
    induction pre with
    | nil => simp [cleanupWalk, FsError.isNotExist]
    | cons ev rest ih => cases ev <;> simp [cleanupWalk, ih]
  · intro style p e post h
    simp [CleanupStyleConflicts, cleanupWalk, h]
  · intro p e post
    simp [ValidateNoStyleConflicts, validateWalk]

theorem walk_notfound_handling_witness :
    CleanupStyleConflicts "go_zero"
        ([WalkEvent.fileEntry "a"] ++
          .fail "b" .notExist :: [WalkEvent.dirEntry ⟨"c", ∅⟩]) =
      CleanupStyleConflicts "go_zero"
        ([WalkEvent.fileEntry "a"] ++ [WalkEvent.dirEntry ⟨"c", ∅⟩])
    ∧ FsError.isNotExist .permission = false
    ∧ CleanupStyleConflicts "go_zero" [.fail "b" .permission] =
        .error .permission
    ∧ ValidateNoStyleConflicts [.fail "b" .permission] =
        .error (.walk .permission) :=
  ⟨walk_notfound_handling.1 "go_zero" "b" _ _, rfl,
    walk_notfound_handling.2.1 "go_zero" "b" .permission [] rfl,
    walk_notfound_handling.2.2 "b" .permission []⟩

/-- C10: for every style string other than `"go_zero"` (including `"gozero"`
and any unrecognized value), `CleanupStyleConflicts` behaves identically to
`CleanupStyleConflicts` with style `"gozero"`: the flat-named file is kept
and the snake_case file of each co-located pair is deleted. -/
theorem cleanup_unrecognized_style_eq_gozero
    (style : String) (h : style ≠ "go_zero") (events : List WalkEvent) :
    CleanupStyleConflicts style events =
      CleanupStyleConflicts "gozero" events := by
  have hb : (style == "go_zero") = false := beq_eq_false_iff_ne.mpr h
  have hb2 : (("gozero" : String) == "go_zero") = false := by decide
  simp [CleanupStyleConflicts, hb, hb2]

theorem cleanup_unrecognized_style_eq_gozero_witness :
    ("custom" : String) ≠ "go_zero"
    ∧ CleanupStyleConflicts "custom"
        [WalkEvent.dirEntry ⟨"internal/svc",
          {"service_context.go", "servicecontext.go"}⟩] =
      CleanupStyleConflicts "gozero"
        [WalkEvent.dirEntry ⟨"internal/svc",
          {"service_context.go", "servicecontext.go"}⟩] :=
  ⟨by decide, cleanup_unrecognized_style_eq_gozero "custom" (by decide) _⟩

/-- C7: `DetectExistingStyle` returns the style tag of whichever
conflict-pair filename is found first — iterating conflict pairs in table
order, then the three convention directories `internal/svc`,
`internal/handler`, `internal/logic` in that order, checking the snake_case
name before the flat name in each directory — and the empty string when none
of the candidate files exists in any checked location. -/
theorem detect_search_order (tree : String → Finset String) :
    DetectExistingStyle tree = detectFirstFound tree := by
  by_cases h1 : fileExistsIn (tree "internal/svc") "service_context.go" = true <;>
  by_cases h2 : fileExistsIn (tree "internal/svc") "servicecontext.go" = true <;>
  by_cases h3 : fileExistsIn (tree "internal/handler") "service_context.go" = true <;>
  by_cases h4 : fileExistsIn (tree "internal/handler") "servicecontext.go" = true <;>
  by_cases h5 : fileExistsIn (tree "internal/logic") "service_context.go" = true <;>
  by_cases h6 : fileExistsIn (tree "internal/logic") "servicecontext.go" = true <;>
    simp [DetectExistingStyle, knownStyleConflicts, detectOverPairs,
      detectInDirs, commonDirs, detectFirstFound, h1, h2, h3, h4, h5, h6]

/-- C8, counterexample: with no detectable style and an empty default,
`SuggestStyleBasedOnExisting` returns the empty string — its output is not
always non-empty. -/
theorem suggest_empty_default_cex :
    SuggestStyleBasedOnExisting (fun _ => (∅ : Finset String)) "" = "" := rfl

/-- C8, amended: `SuggestStyleBasedOnExisting` returns
`DetectExistingStyle`'s result exactly when that result is non-empty, and
the caller-supplied default exactly when `DetectExistingStyle` returns
empty; its output is non-empty whenever the supplied default is non-empty. -/
theorem suggest_detect_or_default
    (tree : String → Finset String) (defaultStyle : String) :
    (DetectExistingStyle tree ≠ "" →
      SuggestStyleBasedOnExisting tree defaultStyle = DetectExistingStyle tree)
    ∧ (DetectExistingStyle tree = "" →
      SuggestStyleBasedOnExisting tree defaultStyle = defaultStyle)
    ∧ (defaultStyle ≠ "" →
      SuggestStyleBasedOnExisting tree defaultStyle ≠ "") := by
  refine ⟨?_, ?_, ?_⟩
  · intro h
    simp [SuggestStyleBasedOnExisting, bne_iff_ne, h]
  · intro h
    simp [SuggestStyleBasedOnExisting, h]
  · intro h
    by_cases hd : DetectExistingStyle tree = ""
    · simp [SuggestStyleBasedOnExisting, hd, h]
    · simp [SuggestStyleBasedOnExisting, bne_iff_ne, hd]

theorem suggest_detect_or_default_witness :
    DetectExistingStyle (fun _ => (∅ : Finset String)) = ""
    ∧ SuggestStyleBasedOnExisting (fun _ => (∅ : Finset String)) "go_zero" =
        "go_zero"
    ∧ SuggestStyleBasedOnExisting (fun _ => (∅ : Finset String)) "go_zero" ≠
        "" :=
  ⟨rfl,
    (suggest_detect_or_default (fun _ => (∅ : Finset String)) "go_zero").2.1 rfl,
    (suggest_detect_or_default (fun _ => (∅ : Finset String)) "go_zero").2.2
      (by decide)⟩

end StyleConflicts
